import Mathlib

/-!
Shallow embedding of the poster-composition pipeline of `src/lib/imageProcessor.ts`
(function `mergeImages`) together with the pieces of the `sharp` / `canvas`
library semantics the pipeline relies on.

Conventions:
* JavaScript numbers are modelled as `ℚ` (all the arithmetic the pipeline does
  is exact on small rationals); `Math.floor` is `Int.floor`.
* Strings are modelled both as Lean `String`s and, for the case-normalisation
  functions, as lists of Unicode code points (`List ℕ`); JavaScript
  `toUpperCase` / `toLowerCase` are modelled on the ASCII range.
* Raster images are `Image`: a width, a height and a total pixel function.
  Pixels are premultiplied RGBA over `ℚ` with alpha in `[0,1]`.
-/

namespace ImageProcessor

/-! ## Auto-fit text sizing (imageProcessor.ts lines 119-131)

The code computes, for each text field,
`estimatedWidth = text.length * (baseSize * factor)` and
`fontSize = estimatedWidth > maxWidth ? Math.floor(baseSize * (maxWidth / estimatedWidth)) : baseSize`.
-/

def estimatedWidth (len : ℕ) (baseFontSize avgGlyphWidthFactor : ℚ) : ℚ :=
  (len : ℚ) * (baseFontSize * avgGlyphWidthFactor)

def computeFontSize (len : ℕ) (baseFontSize maxWidthPx avgGlyphWidthFactor : ℚ) : ℚ :=
  if estimatedWidth len baseFontSize avgGlyphWidthFactor > maxWidthPx then
    ((⌊baseFontSize * (maxWidthPx / estimatedWidth len baseFontSize avgGlyphWidthFactor)⌋ : ℤ) : ℚ)
  else baseFontSize

/-- The constant `maxWidth = 900` (line 119). -/
def maxWidth : ℚ := 900

/-- The constant `baseNameSize = 64` (line 120). -/
def baseNameSize : ℚ := 64

/-- The constant `baseDesSize = 36` (line 121). -/
def baseDesSize : ℚ := 36

/-- Font size computed for the name field (lines 123-126): factor `0.6`. -/
def nameFontSizeOf (len : ℕ) : ℚ := computeFontSize len baseNameSize maxWidth (6/10)

/-- Font size computed for the designation field (lines 128-131): factor `0.5`. -/
def desFontSizeOf (len : ℕ) : ℚ := computeFontSize len baseDesSize maxWidth (5/10)

/-- Font size actually used when drawing the name (line 178):
`Math.max(nameFontSize, 24)`. -/
def usedNameFontSize (len : ℕ) : ℚ := max (nameFontSizeOf len) 24

/-- Font size actually used when drawing the designation (line 190):
`Math.max(desFontSize, 18)`. -/
def usedDesFontSize (len : ℕ) : ℚ := max (desFontSizeOf len) 18

/-! ## Text vertical positions (imageProcessor.ts lines 133-134)

`nameY = Math.floor(canvasHeight * 0.742)` and
`desY = Math.floor(canvasHeight * 0.774)`.
-/

def nameYOf (canvasHeight : ℕ) : ℤ := ⌊(canvasHeight : ℚ) * (742/1000)⌋

def desYOf (canvasHeight : ℕ) : ℤ := ⌊(canvasHeight : ℚ) * (774/1000)⌋

/-! ## Case normalisation (imageProcessor.ts lines 115-116)

`nameText = name ? name.toUpperCase() : ''` and
`desText = designation ? designation.toLowerCase().replace(/\b\w/g, c => c.toUpperCase()) : ''`.
Strings are lists of code points; the JavaScript case maps are modelled on
the ASCII range.
-/

/-- ASCII model of the JavaScript per-character `toUpperCase`. -/
def upperCode (n : ℕ) : ℕ := if 97 ≤ n ∧ n ≤ 122 then n - 32 else n

/-- ASCII model of the JavaScript per-character `toLowerCase`. -/
def lowerCode (n : ℕ) : ℕ := if 65 ≤ n ∧ n ≤ 90 then n + 32 else n

/-- Is the code point a lowercase ASCII letter? -/
def isLowerCode (n : ℕ) : Bool := 97 ≤ n && n ≤ 122

/-- Is the code point a `\w` regex word character (`[A-Za-z0-9_]`)? -/
def isWordCode (n : ℕ) : Bool :=
  (48 ≤ n && n ≤ 57) || (65 ≤ n && n ≤ 90) || (97 ≤ n && n ≤ 122) || n == 95

/-- JavaScript `s.toUpperCase()`. -/
def jsToUpperCase (s : List ℕ) : List ℕ := s.map upperCode

/-- JavaScript `s.toLowerCase()`. -/
def jsToLowerCase (s : List ℕ) : List ℕ := s.map lowerCode

/-- The call `replace(/\b\w/g, c => c.toUpperCase())`: uppercase every word character
whose predecessor is not a word character.  The boolean argument records
whether the previous character was a word character. -/
def upperAtBoundaries : Bool → List ℕ → List ℕ
  | _, [] => []
  | prevWord, c :: cs =>
    (if isWordCode c && !prevWord then upperCode c else c)
      :: upperAtBoundaries (isWordCode c) cs

/-- The designation normalisation of line 116:
`toLowerCase` then uppercase each word-initial character. -/
def jsTitleCase (s : List ℕ) : List ℕ := upperAtBoundaries false (jsToLowerCase s)

/-- Code points of a Lean string, to state concrete examples. -/
def strCodes (s : String) : List ℕ := s.data.map Char.toNat

/-- The value `nameText` (line 115) as a code-point list; `none` models an absent
(`undefined`) argument and the empty string is JavaScript-falsy. -/
def nameTextOf : Option (List ℕ) → List ℕ
  | some n => if n = [] then [] else jsToUpperCase n
  | none => []

/-- The value `desText` (line 116) as a code-point list. -/
def desTextOf : Option (List ℕ) → List ℕ
  | some d => if d = [] then [] else jsTitleCase d
  | none => []

/-! ## Raster model

Premultiplied RGBA pixels over `ℚ` (alpha in `[0,1]`), images as total pixel
functions with explicit dimensions.  These model the `sharp` raster values the
pipeline passes between its stages.
-/

structure Pixel where
  r : ℚ
  g : ℚ
  b : ℚ
  a : ℚ
deriving DecidableEq

structure Image where
  width : ℕ
  height : ℕ
  pixel : ℕ → ℕ → Pixel

/-- Porter-Duff `over` on premultiplied pixels: the source is drawn on top of
the destination (sharp blend mode `over`). -/
def blendOver (dst src : Pixel) : Pixel :=
  ⟨src.r + dst.r * (1 - src.a), src.g + dst.g * (1 - src.a),
   src.b + dst.b * (1 - src.a), src.a + dst.a * (1 - src.a)⟩

/-- Porter-Duff `dest-over` on premultiplied pixels: the source is drawn
underneath the destination (sharp blend mode `dest-over`), so the destination
shows wherever it is opaque. -/
def blendDestOver (dst src : Pixel) : Pixel :=
  ⟨dst.r + src.r * (1 - dst.a), dst.g + src.g * (1 - dst.a),
   dst.b + src.b * (1 - dst.a), dst.a + src.a * (1 - dst.a)⟩

/-- One entry of a sharp `.composite([...])` call. -/
structure CompositeLayer where
  input : Image
  top : ℤ
  left : ℤ
  blend : Pixel → Pixel → Pixel

/-- Model of `sharp(base).composite(layers)`: the output keeps the base image's
dimensions; each layer is blended in order onto the accumulated raster at its
offset, pixels outside the layer's extent left untouched. -/
def compositeIm (base : Image) (layers : List CompositeLayer) : Image where
  width := base.width
  height := base.height
  pixel := fun x y =>
    layers.foldl
      (fun p l =>
        let dx : ℤ := (x : ℤ) - l.left
        let dy : ℤ := (y : ℤ) - l.top
        if 0 ≤ dx ∧ dx < (l.input.width : ℤ) ∧ 0 ≤ dy ∧ dy < (l.input.height : ℤ)
        then l.blend p (l.input.pixel dx.toNat dy.toNat)
        else p)
      (base.pixel x y)

/-- Model of `sharp(img).resize(w, h)` with the default `fill`-free exact target:
output has exactly the requested dimensions, sampling the source at the
proportionally scaled coordinate (nearest-neighbour model). -/
def resizeExact (img : Image) (w h : ℕ) : Image where
  width := w
  height := h
  pixel := fun x y => img.pixel (x * img.width / w) (y * img.height / h)

/-- The uniform scale factor of a `cover` fit: the smallest scale at which the
scaled source covers the whole `w × h` target box. -/
def coverScale (srcW srcH w h : ℕ) : ℚ :=
  max ((w : ℚ) / (srcW : ℚ)) ((h : ℚ) / (srcH : ℚ))

/-- Anchor positions of a sharp `cover` resize used by the pipeline. -/
inductive FitPosition where
  | top
  | center
deriving DecidableEq

/-- Vertical offset of the crop window of a `cover` fit: `top` anchors the
window at source row 0 (any excess height is cropped from the bottom),
`center` centres it. -/
def coverCropTop (srcH h : ℕ) (s : ℚ) : FitPosition → ℚ
  | .top => 0
  | .center => ((srcH : ℚ) * s - (h : ℚ)) / 2

/-- Model of `sharp(img).resize(w, h, { fit: 'cover', position })`: scale the source
uniformly by `coverScale` (aspect ratio preserved, no stretch), then crop a
`w × h` window, horizontally centred and vertically placed by `position`. -/
def resizeCover (img : Image) (w h : ℕ) (pos : FitPosition) : Image where
  width := w
  height := h
  pixel := fun x y =>
    let s := coverScale img.width img.height w h
    let cropLeft : ℚ := ((img.width : ℚ) * s - (w : ℚ)) / 2
    let cropTop : ℚ := coverCropTop img.height h s pos
    img.pixel (⌊((x : ℚ) + cropLeft) / s⌋.toNat) (⌊((y : ℚ) + cropTop) / s⌋.toNat)

/-! ## The composition pipeline (imageProcessor.ts lines 60-241) -/

/-- The default `metadata.width || fallback`: a JavaScript `||` default, where `0` (and
`undefined`, not modelled here since sharp metadata of a decoded asset always
carries its native dimensions) is falsy (lines 65-68). -/
def metaOr (n fallback : ℕ) : ℕ := if n = 0 then fallback else n

/-- The constant `charTopOffset = 350` (line 77). -/
def charTopOffset : ℤ := 350

/-- The constant `charLeftOffset = 0` (line 78). -/
def charLeftOffset : ℤ := 0

/-- The value `charHeight = Math.floor(layerHeight * 0.60)` (line 76). -/
def charHeightOf (layerHeight : ℕ) : ℕ := (⌊(layerHeight : ℚ) * (60/100)⌋).toNat

/-- STEP 1 (lines 80-95): resize the frame (`layer.png`) to its native
dimensions and composite the character image behind it (`dest-over`), the
character first cover-resized to `(layerWidth, charHeight)` anchored `top`,
placed at offset `(350, 0)`. -/
def layerWithCharacter (layer char : Image) (layerW layerH : ℕ) : Image :=
  compositeIm (resizeExact layer layerW layerH)
    [⟨resizeCover char layerW (charHeightOf layerH) .top,
      charTopOffset, charLeftOffset, blendDestOver⟩]

/-- The base composite layer (lines 98-108): the frame+character raster
cover-resized to the background's dimensions, gravity `center`, blend `over`. -/
def baseLayer (layer char : Image) (bgW bgH layerW layerH : ℕ) : CompositeLayer :=
  let resized := resizeCover (layerWithCharacter layer char layerW layerH) bgW bgH .center
  ⟨resized, ((bgH : ℤ) - (resized.height : ℤ)) / 2, ((bgW : ℤ) - (resized.width : ℤ)) / 2,
    blendOver⟩

/-- JavaScript truthiness of an optional string argument: `undefined` and the
empty string are falsy (line 110 tests `name || designation`). -/
def jsTruthy : Option (List ℕ) → Bool
  | some s => !(s.isEmpty)
  | none => false

/-- The full raster pipeline of `mergeImages` (lines 60-241): dimensions are
read from the background and frame assets (with the `|| 1024` / `|| 1080` /
`|| 1920` fallbacks), the character is merged behind the frame, the text
overlay — a canvas raster of the background's dimensions whose pixel content
`renderText` is produced by the canvas text renderer — is added only when
`name || designation` is truthy, and everything is flattened onto the
background resized to its own native dimensions. -/
def mergeImagesIm (bg layer char : Image) (name designation : Option (List ℕ))
    (renderText : ℕ → ℕ → Pixel) : Image :=
  let bgW := metaOr bg.width 1024
  let bgH := metaOr bg.height 1024
  let layerW := metaOr layer.width 1080
  let layerH := metaOr layer.height 1920
  let base := [baseLayer layer char bgW bgH layerW layerH]
  let finalCompositeLayers :=
    if jsTruthy name || jsTruthy designation
    then base ++ [⟨⟨bgW, bgH, renderText⟩, 0, 0, blendOver⟩]
    else base
  compositeIm (resizeExact bg bgW bgH) finalCompositeLayers

/-- The text-free composition (background + frame + character only):
what lines 237-241 produce when line 110's condition is false. -/
def composeBaseOnly (bg layer char : Image) : Image :=
  let bgW := metaOr bg.width 1024
  let bgH := metaOr bg.height 1024
  let layerW := metaOr layer.width 1080
  let layerH := metaOr layer.height 1920
  compositeIm (resizeExact bg bgW bgH) [baseLayer layer char bgW bgH layerW layerH]

/-! ## Error propagation (imageProcessor.ts lines 36, 284-287)

The whole body of `mergeImages` runs inside one `try`; any rejected sharp
operation aborts the remaining stages and the `catch` rethrows a single
wrapped `Error` built from the failing operation's message.  Fallible
operations are modelled as `Except String` values supplied by the
environment; `β` is the buffer type a successful stage produces.
-/

/-- The outcomes of the fallible sharp operations `mergeImages` performs, in
program order.  Later stages consume earlier stages' buffers. -/
structure MergeOps (β : Type) where
  bgMetadata : Except String (ℕ × ℕ)
  layerMetadata : Except String (ℕ × ℕ)
  resizeCharacter : Except String β
  compositeCharacterBehindLayer : β → Except String β
  resizeLayerToBackground : β → Except String β
  finalCompositeEncode : β → Except String β

/-- The `try` body: each sharp stage in order, stopping at the first
rejection (lines 60-241). -/
def mergeImagesBody {β : Type} (ops : MergeOps β) : Except String β := do
  let _ ← ops.bgMetadata
  let _ ← ops.layerMetadata
  let charBuf ← ops.resizeCharacter
  let layerChar ← ops.compositeCharacterBehindLayer charBuf
  let resized ← ops.resizeLayerToBackground layerChar
  ops.finalCompositeEncode resized

/-- Model of line 286, which throws a new error wrapping the caught message. -/
def wrapMergeError (msg : String) : String := "Failed to merge images: " ++ msg

/-- The function `mergeImages` with its `try`/`catch` (lines 36, 284-287): a failing body
is rethrown as the single wrapped error. -/
def mergeImagesE {β : Type} (ops : MergeOps β) : Except String β :=
  match mergeImagesBody ops with
  | .ok buf => .ok buf
  | .error e => .error (wrapMergeError e)

end ImageProcessor

namespace ImageProcessor

/-! ## Theorems -/

/-- C2: the auto-fit computation estimates the width as
`len(text) * baseFontSize * avgGlyphWidthFactor`; if that estimate is at most
`maxWidthPx` it returns `baseFontSize` unchanged, otherwise it returns
`floor(baseFontSize * maxWidthPx / estimatedWidth)`. -/
theorem computeFontSize_spec (len : ℕ) (base maxW factor : ℚ) :
    estimatedWidth len base factor = (len : ℚ) * base * factor ∧
    computeFontSize len base maxW factor =
      if (len : ℚ) * base * factor ≤ maxW then base
      else ((⌊base * maxW / ((len : ℚ) * base * factor)⌋ : ℤ) : ℚ) := by
  constructor
  · rw [estimatedWidth, mul_assoc]
  · unfold computeFontSize
    rw [estimatedWidth, ← mul_assoc, ← mul_div_assoc]
    by_cases h : (len : ℚ) * base * factor > maxW
    · rw [if_pos h, if_neg (not_le.mpr h)]
    · rw [if_neg h, if_pos (not_lt.mp h)]

lemma computeFontSize_lt_base {len : ℕ} {base maxW factor : ℚ}
    (hb : 0 < base) (hm : 0 < maxW)
    (h : estimatedWidth len base factor > maxW) :
    computeFontSize len base maxW factor < base := by
  unfold computeFontSize
  rw [if_pos h]
  have hest : (0 : ℚ) < estimatedWidth len base factor := lt_trans hm h
  have hr : maxW / estimatedWidth len base factor < 1 := (div_lt_one hest).mpr h
  have hx : base * (maxW / estimatedWidth len base factor) < base := by
    calc base * (maxW / estimatedWidth len base factor)
        < base * 1 := by exact mul_lt_mul_of_pos_left hr hb
      _ = base := mul_one base
  exact lt_of_le_of_lt (Int.floor_le _) hx

/-- C3: when the estimated width exceeds `maxWidth`, the font size actually
used for drawing is strictly below the base size and never below the
per-field floor (24 px for the name, 18 px for the designation). -/
theorem autofit_overflow_shrinks_with_floor (nameLen desLen : ℕ)
    (hn : estimatedWidth nameLen baseNameSize (6/10) > maxWidth)
    (hd : estimatedWidth desLen baseDesSize (5/10) > maxWidth) :
    (24 ≤ usedNameFontSize nameLen ∧ usedNameFontSize nameLen < baseNameSize) ∧
    (18 ≤ usedDesFontSize desLen ∧ usedDesFontSize desLen < baseDesSize) := by
  have hname : nameFontSizeOf nameLen < baseNameSize :=
    computeFontSize_lt_base (by norm_num [baseNameSize]) (by norm_num [maxWidth]) hn
  have hdes : desFontSizeOf desLen < baseDesSize :=
    computeFontSize_lt_base (by norm_num [baseDesSize]) (by norm_num [maxWidth]) hd
  refine ⟨⟨le_max_right _ _, ?_⟩, ⟨le_max_right _ _, ?_⟩⟩
  · exact max_lt hname (by norm_num [baseNameSize])
  · exact max_lt hdes (by norm_num [baseDesSize])

theorem autofit_overflow_shrinks_with_floor_witness :
    estimatedWidth 24 baseNameSize (6/10) > maxWidth ∧
    estimatedWidth 51 baseDesSize (5/10) > maxWidth ∧
    ((24 ≤ usedNameFontSize 24 ∧ usedNameFontSize 24 < baseNameSize) ∧
     (18 ≤ usedDesFontSize 51 ∧ usedDesFontSize 51 < baseDesSize)) :=
  ⟨by norm_num [estimatedWidth, baseNameSize, maxWidth],
   by norm_num [estimatedWidth, baseDesSize, maxWidth],
   autofit_overflow_shrinks_with_floor 24 51
     (by norm_num [estimatedWidth, baseNameSize, maxWidth])
     (by norm_num [estimatedWidth, baseDesSize, maxWidth])⟩

/-- C4 counterexample: "ALEXANDER HAMILTON" has 18 characters, so at base
size 80 with glyph factor 0.6 and max width 900 the estimated width is
`18 * 80 * 0.6 = 864`, which does **not** exceed 900; the computed font size
is the unchanged base 80, not 78 as the claim states. -/
theorem alexander_hamilton_not_78 :
    (strCodes "ALEXANDER HAMILTON").length = 18 ∧
    estimatedWidth (strCodes "ALEXANDER HAMILTON").length 80 (6/10) = 864 ∧
    ¬((864 : ℚ) > 900) ∧
    computeFontSize (strCodes "ALEXANDER HAMILTON").length 80 900 (6/10) ≠ 78 := by
  refine ⟨by decide, ?_, by norm_num, ?_⟩
  · norm_num [estimatedWidth, strCodes]
  · norm_num [computeFontSize, estimatedWidth, strCodes]

/-- C4 amended: for "ALEXANDER HAMILTON" (18 characters) with base size 80,
glyph factor 0.6 and max width 900, the estimated width is 864 which is at
most 900, so the computed font size is the base size 80 unchanged. -/
theorem alexander_hamilton_stays_80 :
    estimatedWidth (strCodes "ALEXANDER HAMILTON").length 80 (6/10) = 864 ∧
    computeFontSize (strCodes "ALEXANDER HAMILTON").length 80 900 (6/10) = 80 := by
  constructor
  · norm_num [estimatedWidth, strCodes]
  · norm_num [computeFontSize, estimatedWidth, strCodes]

/-- C5 counterexample: the renderer hardcodes the fractions 0.742 and 0.774,
not the claimed canonical 0.752 and 0.784; at canvas height 1920 the code
draws the name at y = 1424 and the designation at y = 1486, while the claimed
fractions would give 1443 and 1505. -/
theorem text_positions_ne_canonical :
    nameYOf 1920 = 1424 ∧ desYOf 1920 = 1486 ∧
    nameYOf 1920 ≠ ⌊(1920 : ℚ) * (752/1000)⌋ ∧
    desYOf 1920 ≠ ⌊(1920 : ℚ) * (784/1000)⌋ := by
  refine ⟨?_, ?_, ?_, ?_⟩ <;> norm_num [nameYOf, desYOf]

/-- C5 amended: the name is drawn at vertical position
`floor(canvasHeight * 0.742)` and the designation at
`floor(canvasHeight * 0.774)`; the fractions are the hardcoded constants
0.742 and 0.774 of `mergeImages` (at height 1920: 1424 and 1486). -/
theorem text_positions_hardcoded_742_774 (h : ℕ) :
    nameYOf h = ⌊(h : ℚ) * (742/1000)⌋ ∧
    desYOf h = ⌊(h : ℚ) * (774/1000)⌋ ∧
    nameYOf 1920 = 1424 ∧ desYOf 1920 = 1486 := by
  refine ⟨rfl, rfl, ?_, ?_⟩ <;> norm_num [nameYOf, desYOf]

end ImageProcessor

namespace ImageProcessor

lemma isLowerCode_upperCode (n : ℕ) : isLowerCode (upperCode n) = false := by
  unfold isLowerCode upperCode
  split_ifs with h <;> simp <;> omega

lemma lowerCode_lowerCode (n : ℕ) : lowerCode (lowerCode n) = lowerCode n := by
  unfold lowerCode
  split_ifs with h1 h2 <;> first | rfl | omega

/-- A code-point string with no lowercase ASCII letter ("all caps"). -/
def allCaps (s : List ℕ) : Bool := s.all (fun c => !(isLowerCode c))

lemma allCaps_jsToUpperCase (s : List ℕ) : allCaps (jsToUpperCase s) = true := by
  unfold allCaps jsToUpperCase
  rw [List.all_eq_true]
  intro c hc
  rw [List.mem_map] at hc
  obtain ⟨n, _, rfl⟩ := hc
  rw [isLowerCode_upperCode]
  rfl

/-- C7: with a non-empty name and designation supplied, the pipeline's text
layer uses `nameText = name.toUpperCase()` and the title-cased designation,
and the name text is always all-caps (it contains no lowercase letter),
whatever the optional name argument was. -/
theorem name_uppercased_designation_titlecased (n d : List ℕ) (o : Option (List ℕ))
    (hn : n ≠ []) (hd : d ≠ []) :
    nameTextOf (some n) = jsToUpperCase n ∧
    desTextOf (some d) = jsTitleCase d ∧
    allCaps (nameTextOf o) = true := by
  refine ⟨by simp [nameTextOf, hn], by simp [desTextOf, hd], ?_⟩
  match o with
  | none => rfl
  | some m =>
    by_cases hm : m = []
    · simp [nameTextOf, hm, allCaps]
    · simp only [nameTextOf, if_neg hm]
      exact allCaps_jsToUpperCase m

theorem name_uppercased_designation_titlecased_witness :
    strCodes "John Doe" ≠ [] ∧ strCodes "senior engineer" ≠ [] ∧
    (nameTextOf (some (strCodes "John Doe")) = jsToUpperCase (strCodes "John Doe") ∧
     desTextOf (some (strCodes "senior engineer")) = jsTitleCase (strCodes "senior engineer") ∧
     allCaps (nameTextOf (some (strCodes "John Doe"))) = true) :=
  ⟨by decide, by decide,
   name_uppercased_designation_titlecased (strCodes "John Doe")
     (strCodes "senior engineer") (some (strCodes "John Doe"))
     (by decide) (by decide)⟩

lemma jsToLowerCase_jsToLowerCase (s : List ℕ) :
    jsToLowerCase (jsToLowerCase s) = jsToLowerCase s := by
  unfold jsToLowerCase
  rw [List.map_map]
  exact List.map_congr_left (fun a _ => lowerCode_lowerCode a)

/-- C10: the designation title-casing lowercases the whole string before
uppercasing word-initial characters, so interior capitalization of the input
never survives: the result is unchanged if the input is pre-lowercased, and
concretely "CEO" becomes "Ceo". -/
theorem titlecase_lowercases_first (s : List ℕ) :
    jsTitleCase (strCodes "CEO") = strCodes "Ceo" ∧
    jsTitleCase s = jsTitleCase (jsToLowerCase s) := by
  constructor
  · decide
  · unfold jsTitleCase
    rw [jsToLowerCase_jsToLowerCase]

end ImageProcessor

namespace ImageProcessor

/-- An opaque single-colour raster of the given dimensions, for concrete
instantiations. -/
def testImage (w h : ℕ) : Image := ⟨w, h, fun _ _ => ⟨0, 0, 0, 1⟩⟩

/-- A fully transparent pixel function, standing for an arbitrary canvas
text raster. -/
def blankText : ℕ → ℕ → Pixel := fun _ _ => ⟨0, 0, 0, 0⟩

/-- C1: for every background of positive native dimensions `(W, H)` and any
character image, frame, text arguments and canvas content, the final raster
has dimensions exactly `(W, H)`. -/
theorem mergeImages_output_dims_eq_background
    (bg layer char : Image) (name des : Option (List ℕ)) (rt : ℕ → ℕ → Pixel)
    (hW : bg.width ≠ 0) (hH : bg.height ≠ 0) :
    (mergeImagesIm bg layer char name des rt).width = bg.width ∧
    (mergeImagesIm bg layer char name des rt).height = bg.height := by
  constructor <;>
    simp [mergeImagesIm, compositeIm, resizeExact, metaOr, hW, hH]

theorem mergeImages_output_dims_eq_background_witness :
    (testImage 1080 1920).width ≠ 0 ∧ (testImage 1080 1920).height ≠ 0 ∧
    ((mergeImagesIm (testImage 1080 1920) (testImage 1080 1920)
        (testImage 123 4567) (some (strCodes "JOHN")) none blankText).width = 1080 ∧
     (mergeImagesIm (testImage 1080 1920) (testImage 1080 1920)
        (testImage 123 4567) (some (strCodes "JOHN")) none blankText).height = 1920) :=
  ⟨by decide, by decide,
   mergeImages_output_dims_eq_background (testImage 1080 1920) (testImage 1080 1920)
     (testImage 123 4567) (some (strCodes "JOHN")) none blankText
     (by decide) (by decide)⟩

/-- C8: when both `name` and `designation` are absent or empty, the pipeline
adds no text layer: the output raster is exactly the raster obtained by
compositing background, frame and character alone, independent of whatever
the canvas renderer would have drawn. -/
theorem empty_text_skips_overlay
    (bg layer char : Image) (name des : Option (List ℕ)) (rt : ℕ → ℕ → Pixel)
    (hn : name = none ∨ name = some []) (hd : des = none ∨ des = some []) :
    mergeImagesIm bg layer char name des rt = composeBaseOnly bg layer char := by
  have h1 : jsTruthy name = false := by
    rcases hn with h | h <;> simp [h, jsTruthy]
  have h2 : jsTruthy des = false := by
    rcases hd with h | h <;> simp [h, jsTruthy]
  unfold mergeImagesIm composeBaseOnly
  rw [h1, h2]
  simp

theorem empty_text_skips_overlay_witness :
    ((none : Option (List ℕ)) = none ∨ (none : Option (List ℕ)) = some []) ∧
    ((some ([] : List ℕ)) = none ∨ (some ([] : List ℕ)) = some []) ∧
    mergeImagesIm (testImage 1080 1920) (testImage 1080 1920) (testImage 640 480)
        none (some []) blankText
      = composeBaseOnly (testImage 1080 1920) (testImage 1080 1920) (testImage 640 480) :=
  ⟨Or.inl rfl, Or.inr rfl,
   empty_text_skips_overlay (testImage 1080 1920) (testImage 1080 1920)
     (testImage 640 480) none (some []) blankText (Or.inl rfl) (Or.inr rfl)⟩

end ImageProcessor

namespace ImageProcessor

lemma blendDestOver_opaque_dst (p q : Pixel) (hp : p.a = 1) :
    blendDestOver p q = p := by
  cases p
  simp_all [blendDestOver]

lemma coverScale_pos {srcW srcH w h : ℕ} (hsrcH : 0 < srcH) (hh : 0 < h) :
    0 < coverScale srcW srcH w h :=
  lt_of_lt_of_le
    (div_pos (by exact_mod_cast hh) (by exact_mod_cast hsrcH))
    (le_max_right _ _)

lemma coverScale_covers_width {srcW srcH w h : ℕ} (hsrcW : 0 < srcW) :
    (w : ℚ) ≤ (srcW : ℚ) * coverScale srcW srcH w h := by
  have hne : ((srcW : ℚ)) ≠ 0 := Nat.cast_ne_zero.mpr hsrcW.ne'
  calc (w : ℚ) = (w : ℚ) / (srcW : ℚ) * (srcW : ℚ) := (div_mul_cancel₀ _ hne).symm
    _ ≤ coverScale srcW srcH w h * (srcW : ℚ) :=
        mul_le_mul_of_nonneg_right (le_max_left _ _) (Nat.cast_nonneg _)
    _ = (srcW : ℚ) * coverScale srcW srcH w h := mul_comm _ _

lemma coverScale_covers_height {srcW srcH w h : ℕ} (hsrcH : 0 < srcH) :
    (h : ℚ) ≤ (srcH : ℚ) * coverScale srcW srcH w h := by
  have hne : ((srcH : ℚ)) ≠ 0 := Nat.cast_ne_zero.mpr hsrcH.ne'
  calc (h : ℚ) = (h : ℚ) / (srcH : ℚ) * (srcH : ℚ) := (div_mul_cancel₀ _ hne).symm
    _ ≤ coverScale srcW srcH w h * (srcH : ℚ) :=
        mul_le_mul_of_nonneg_right (le_max_right _ _) (Nat.cast_nonneg _)
    _ = (srcH : ℚ) * coverScale srcW srcH w h := mul_comm _ _

/-- C6: the character is resized to exactly
`(frame.width, floor(frame.height * 0.60))` by a cover fit — one uniform
scale under which the scaled source covers the whole target box (never
letterboxed or stretched) — anchored at the top edge (the crop window starts
at source row 0 and every target row samples a real source row, so only
bottom rows are dropped), and it is composited `dest-over`, so wherever the
resized frame is opaque the merged raster still shows the frame. -/
theorem character_cover_fit_behind_frame
    (layer char : Image) (layerW layerH : ℕ)
    (hcw : 0 < char.width) (hch : 0 < char.height)
    (hct : 0 < charHeightOf layerH) :
    ((resizeCover char layerW (charHeightOf layerH) .top).width = layerW ∧
     (resizeCover char layerW (charHeightOf layerH) .top).height = charHeightOf layerH) ∧
    ((layerW : ℚ) ≤ (char.width : ℚ) *
        coverScale char.width char.height layerW (charHeightOf layerH) ∧
     ((charHeightOf layerH : ℕ) : ℚ) ≤ (char.height : ℚ) *
        coverScale char.width char.height layerW (charHeightOf layerH)) ∧
    (coverCropTop char.height (charHeightOf layerH)
        (coverScale char.width char.height layerW (charHeightOf layerH)) .top = 0 ∧
     (∀ y : ℕ, y < charHeightOf layerH →
        (⌊(y : ℚ) / coverScale char.width char.height layerW (charHeightOf layerH)⌋).toNat
          < char.height) ∧
     (⌊(0 : ℚ) / coverScale char.width char.height layerW (charHeightOf layerH)⌋).toNat = 0) ∧
    (∀ x y : ℕ, ((resizeExact layer layerW layerH).pixel x y).a = 1 →
      (layerWithCharacter layer char layerW layerH).pixel x y =
        (resizeExact layer layerW layerH).pixel x y) := by
  have hs : 0 < coverScale char.width char.height layerW (charHeightOf layerH) :=
    coverScale_pos hch hct
  refine ⟨⟨rfl, rfl⟩,
    ⟨coverScale_covers_width hcw, coverScale_covers_height hch⟩,
    ⟨rfl, ?_, by rw [zero_div, Int.floor_zero]; rfl⟩, ?_⟩
  · intro y hy
    have hcover : ((charHeightOf layerH : ℕ) : ℚ) ≤ (char.height : ℚ) *
        coverScale char.width char.height layerW (charHeightOf layerH) :=
      coverScale_covers_height hch
    have hdiv : (y : ℚ) / coverScale char.width char.height layerW (charHeightOf layerH)
        < (char.height : ℚ) := by
      rw [div_lt_iff₀ hs]
      calc (y : ℚ) < ((charHeightOf layerH : ℕ) : ℚ) := by exact_mod_cast hy
        _ ≤ (char.height : ℚ) *
              coverScale char.width char.height layerW (charHeightOf layerH) := hcover
    have hfl : ⌊(y : ℚ) / coverScale char.width char.height layerW (charHeightOf layerH)⌋
        < (char.height : ℤ) := by
      rw [Int.floor_lt]
      exact_mod_cast hdiv
    have hfl0 : 0 ≤ ⌊(y : ℚ) / coverScale char.width char.height layerW (charHeightOf layerH)⌋ :=
      Int.floor_nonneg.mpr (div_nonneg (Nat.cast_nonneg _) hs.le)
    omega
  · intro x y hp
    unfold layerWithCharacter compositeIm
    simp only [List.foldl]
    split_ifs with h
    · exact blendDestOver_opaque_dst _ _ hp
    · rfl

theorem character_cover_fit_behind_frame_witness :
    0 < (testImage 640 480).width ∧ 0 < (testImage 640 480).height ∧
    0 < charHeightOf 1920 ∧
    (((resizeCover (testImage 640 480) 1080 (charHeightOf 1920) .top).width = 1080 ∧
      (resizeCover (testImage 640 480) 1080 (charHeightOf 1920) .top).height
        = charHeightOf 1920) ∧
     ((1080 : ℚ) ≤ ((testImage 640 480).width : ℚ) *
         coverScale (testImage 640 480).width (testImage 640 480).height 1080
           (charHeightOf 1920) ∧
      ((charHeightOf 1920 : ℕ) : ℚ) ≤ ((testImage 640 480).height : ℚ) *
         coverScale (testImage 640 480).width (testImage 640 480).height 1080
           (charHeightOf 1920)) ∧
     (coverCropTop (testImage 640 480).height (charHeightOf 1920)
         (coverScale (testImage 640 480).width (testImage 640 480).height 1080
           (charHeightOf 1920)) .top = 0 ∧
      (∀ y : ℕ, y < charHeightOf 1920 →
         (⌊(y : ℚ) / coverScale (testImage 640 480).width (testImage 640 480).height 1080
             (charHeightOf 1920)⌋).toNat < (testImage 640 480).height) ∧
      (⌊(0 : ℚ) / coverScale (testImage 640 480).width (testImage 640 480).height 1080
          (charHeightOf 1920)⌋).toNat = 0) ∧
     (∀ x y : ℕ,
        ((resizeExact (testImage 1080 1920) 1080 1920).pixel x y).a = 1 →
        (layerWithCharacter (testImage 1080 1920) (testImage 640 480) 1080 1920).pixel x y =
          (resizeExact (testImage 1080 1920) 1080 1920).pixel x y)) :=
  ⟨by decide, by decide, by norm_num [charHeightOf],
   character_cover_fit_behind_frame (testImage 1080 1920) (testImage 640 480) 1080 1920
     (by decide) (by decide) (by norm_num [charHeightOf])⟩

end ImageProcessor

namespace ImageProcessor

/-- C9: whenever any sharp stage of the pipeline fails (so the `try` body
rejects with that stage's message `msg`), `mergeImages` yields the single
wrapped error `"Failed to merge images: " ++ msg` and never a buffer. -/
theorem merge_error_wrapped {β : Type} (ops : MergeOps β) (msg : String)
    (h : mergeImagesBody ops = .error msg) :
    mergeImagesE ops = .error (wrapMergeError msg) ∧
    ∀ buf : β, mergeImagesE ops ≠ .ok buf := by
  unfold mergeImagesE
  rw [h]
  exact ⟨rfl, fun buf hc => by simp at hc⟩

/-- Concrete pipeline outcomes in which the frame+character resize stage
rejects and every other stage would have succeeded. -/
def failingResizeOps : MergeOps ℕ where
  bgMetadata := .ok (1080, 1920)
  layerMetadata := .ok (1080, 1920)
  resizeCharacter := .ok 0
  compositeCharacterBehindLayer := fun b => .ok b
  resizeLayerToBackground := fun _ => .error "resize failed"
  finalCompositeEncode := fun b => .ok b

theorem merge_error_wrapped_witness :
    mergeImagesBody failingResizeOps = .error "resize failed" ∧
    mergeImagesE failingResizeOps = .error "Failed to merge images: resize failed" ∧
    mergeImagesE failingResizeOps ≠ .ok 0 :=
  ⟨rfl, (merge_error_wrapped failingResizeOps "resize failed" rfl).1,
   (merge_error_wrapped failingResizeOps "resize failed" rfl).2 0⟩

end ImageProcessor
